import Mathlib

/-!
Shallow embedding of the `solitaire` package (files `card.py`, `move.py`,
`board.py`) and proofs about the claims of its specification.

Python piles are lists whose *top* is the *end* of the list (Python
`list.append` / `list.pop`); the embedding keeps that orientation, so the
top card of a pile is `List.getLast?` of its card list.
-/

namespace Solitaire

/-! ## Card model (`card.py`) -/

/-- `Suit` enum; declaration order matches the Python enum
(HEARTS, DIAMONDS, CLUBS, SPADES). -/
inductive Suit
  | hearts
  | diamonds
  | clubs
  | spades
deriving DecidableEq, Repr, Fintype

/-- The color of a suit (the Python property returns the strings
"red" / "black"; we use a two-value type). -/
inductive SColor
  | red
  | black
deriving DecidableEq, Repr

/-- `Suit.color`: hearts and diamonds are red, clubs and spades black. -/
def Suit.color : Suit → SColor
  | .hearts => .red
  | .diamonds => .red
  | .clubs => .black
  | .spades => .black

/-- `Rank` enum with members ACE..KING. -/
inductive Rank
  | ace
  | two
  | three
  | four
  | five
  | six
  | seven
  | eight
  | nine
  | ten
  | jack
  | queen
  | king
deriving DecidableEq, Repr, Fintype

/-- The integer `value` of a rank (1..13), as in the Python enum. -/
def Rank.value : Rank → Nat
  | .ace => 1
  | .two => 2
  | .three => 3
  | .four => 4
  | .five => 5
  | .six => 6
  | .seven => 7
  | .eight => 8
  | .nine => 9
  | .ten => 10
  | .jack => 11
  | .queen => 12
  | .king => 13

/-- A playing card: a (rank, suit) pair (`Card` dataclass). -/
structure Card where
  rank : Rank
  suit : Suit
deriving DecidableEq, Repr, Fintype

/-! ## Piles (`board.py`)

The abstract `Pile` operations act on a `List Card` whose last element is
the top of the pile. -/

/-- `Pile.top_card`: the top card of a pile, or `none` if empty. -/
def topCard (cards : List Card) : Option Card :=
  cards.getLast?

/-- `Pile.add_card`: push a card on top of a pile. -/
def addCard (cards : List Card) (c : Card) : List Card :=
  cards ++ [c]

/-- `Pile.pop_card`: remove and return the top card; Python raises on an
empty pile, modelled by `none`. -/
def popCardFrom (cards : List Card) : Option (Card × List Card) :=
  match cards.getLast? with
  | none => none
  | some c => some (c, cards.dropLast)

/-- A foundation pile with its fixed suit (`Foundation`). -/
structure Foundation where
  suit : Suit
  cards : List Card
deriving DecidableEq, Repr

/-- `Foundation.can_add_card`: reject a wrong-suit card, accept an ace on
an empty foundation, else require rank = top rank + 1. -/
def Foundation.canAddCard (f : Foundation) (card : Card) : Bool :=
  if card.suit ≠ f.suit then
    false
  else
    match topCard f.cards with
    | none => card.rank = Rank.ace
    | some top => card.rank.value = top.rank.value + 1

/-- A tableau pile: a face-down list and a face-up list (`Tableau`);
the Python `_cards` list of the pile is the face-up list. -/
structure Tableau where
  faceDown : List Card
  faceUp : List Card
deriving DecidableEq, Repr

/-- The tableau's top card is the top of its face-up list. -/
def Tableau.topCard (t : Tableau) : Option Card :=
  Solitaire.topCard t.faceUp

/-- `Tableau.can_add_card`: a king on an empty tableau, else opposite
color and rank = top rank - 1. -/
def Tableau.canAddCard (t : Tableau) (card : Card) : Bool :=
  match t.topCard with
  | none => card.rank = Rank.king
  | some top =>
    decide (card.suit.color ≠ top.suit.color) &&
      decide (card.rank.value = top.rank.value - 1)

/-- `Tableau.pop_stack`: remove and return the top `numCards` face-up
cards. The Python body slices `_cards[-n:]` / `_cards[:-n]`; for `n = 0`
those slices are the whole list and the empty list respectively, and for
`n ≥ 1` they are the last `n` elements (clamped) and the rest. -/
def Tableau.popStack (t : Tableau) (numCards : Nat) : List Card × Tableau :=
  let stack := if numCards = 0 then t.faceUp else t.faceUp.drop (t.faceUp.length - numCards)
  let kept := if numCards = 0 then [] else t.faceUp.take (t.faceUp.length - numCards)
  (stack, { t with faceUp := kept })

/-- `Tableau.flip_top_card`: if there are no face-up cards but some
face-down cards, move the top face-down card to the face-up list. -/
def Tableau.flipTopCard (t : Tableau) : Tableau :=
  match t.faceUp, t.faceDown.getLast? with
  | [], some c => { faceDown := t.faceDown.dropLast, faceUp := [c] }
  | _, _ => t

/-! ## Moves (`move.py`) -/

/-- The nine move variants; each carries the addressing data of the Python
dataclass plus the card retained for display. -/
inductive Move
  | drawFromStock
  | resetStock
  | wasteToFoundation (foundationIndex : Nat) (card : Card)
  | wasteToTableau (tableauIndex : Nat) (card : Card)
  | tableauToFoundation (sourceTableauIndex foundationIndex : Nat) (card : Card)
  | tableauToFoundationAndReveal (sourceTableauIndex foundationIndex : Nat) (card : Card)
  | foundationToTableau (sourceFoundationIndex destTableauIndex : Nat) (card : Card)
  | tableauToTableau (sourceTableauIndex destTableauIndex numCards : Nat) (card : Card)
  | tableauToTableauAndReveal (sourceTableauIndex destTableauIndex numCards : Nat) (card : Card)
deriving DecidableEq, Repr

/-! ## Board (`board.py`) -/

/-- The tuple returned by `Board._get_state_hash`, with one named field
per tuple component. -/
structure StateHash where
  stockState : List Card
  wasteState : List Card
  foundationsState : List (Option Card)
  tableauStates : List (Nat × List Card)
deriving DecidableEq, Repr

/-- The board: stock, waste, the four foundations, the tableaus, the move
counter and the visited-state history. -/
structure Board where
  stock : List Card
  waste : List Card
  foundations : List Foundation
  tableaus : List Tableau
  moveCount : Nat
  stateHistory : List StateHash
deriving DecidableEq, Repr

/-- `foundation_suits = list(Suit)`: the fixed suit order. -/
def foundationSuits : List Suit :=
  [.hearts, .diamonds, .clubs, .spades]

/-- `foundation_suits.index(suit)`. -/
def suitIndex : Suit → Nat
  | .hearts => 0
  | .diamonds => 1
  | .clubs => 2
  | .spades => 3

/-- `Board.__init__`: empty stock and waste, four empty foundations in the
fixed suit order, no tableaus, move count 0, empty history. -/
def initBoard : Board :=
  { stock := []
    waste := []
    foundations := foundationSuits.map (fun s => { suit := s, cards := [] })
    tableaus := []
    moveCount := 0
    stateHistory := [] }

/-- `Board._get_state_hash`: the stock sequence, the waste sequence, the
top card of each foundation, and for each tableau the hidden count paired
with the face-up sequence. -/
def Board.stateHash (b : Board) : StateHash :=
  { stockState := b.stock
    wasteState := b.waste
    foundationsState := b.foundations.map fun f => topCard f.cards
    tableauStates := b.tableaus.map fun t => (t.faceDown.length, t.faceUp) }

/-- `[deck.pop() for _ in range(n)]`: pop `n` cards off the end of the
deck, returning them in pop order together with the remaining deck. -/
def popMany (deck : List Card) : Nat → List Card × List Card
  | 0 => ([], deck)
  | n + 1 =>
    match deck.getLast? with
    | none => ([], deck)
    | some c =>
      let p := popMany deck.dropLast n
      (c :: p.1, p.2)

/-- The dealing loop of `Board.setup`: for `i` from the current index up,
pop `i` face-down cards and one face-up card per tableau. -/
def dealFrom (deck : List Card) (i : Nat) : Nat → List Tableau × List Card
  | 0 => ([], deck)
  | count + 1 =>
    let fd := popMany deck i
    let fu := popMany fd.2 1
    let rest := dealFrom fu.2 (i + 1) count
    ({ faceDown := fd.1, faceUp := fu.1 } :: rest.1, rest.2)

/-- `Board.setup`, parameterized by the already-shuffled deck: deal the
seven tableaus by popping from the deck's end, append the remaining deck
to the stock in order, reset the move count, and record the state hash. -/
def Board.setup (b : Board) (shuffledDeck : List Card) : Board :=
  let d := dealFrom shuffledDeck 0 7
  let b1 := { b with tableaus := d.1, stock := b.stock ++ d.2, moveCount := 0 }
  { b1 with stateHistory := [b1.stateHash] }

/-- The standard 52-card deck `[Card(rank, suit) for suit in Suit for rank in Rank]`. -/
def standardDeck : List Card :=
  foundationSuits.flatMap fun s =>
    [Rank.ace, .two, .three, .four, .five, .six, .seven, .eight, .nine,
      .ten, .jack, .queen, .king].map fun r => { rank := r, suit := s }

/-! ### Legal-move enumeration (`Board.get_legal_moves`)

The Python `for index, item in enumerate(...)` loops are embedded as
recursions that carry the running index explicitly. -/

/-- Step 1: a draw move if the stock is non-empty, else a reset move if
the waste is non-empty. -/
def stockMoves (b : Board) : List Move :=
  if ¬ b.stock.isEmpty then [.drawFromStock]
  else if ¬ b.waste.isEmpty then [.resetStock]
  else []

/-- The waste-to-tableau scan: test the waste top card against every
tableau in order. -/
def wasteToTabGo (c : Card) (i : Nat) : List Tableau → List Move
  | [] => []
  | t :: rest =>
    (if t.canAddCard c then [.wasteToTableau i c] else []) ++ wasteToTabGo c (i + 1) rest

/-- Step 2: moves of the waste top card to its foundation and to tableaus. -/
def wasteMoves (b : Board) : List Move :=
  match topCard b.waste with
  | none => []
  | some c =>
    (match b.foundations[suitIndex c.suit]? with
     | none => []
     | some f => if f.canAddCard c then [.wasteToFoundation (suitIndex c.suit) c] else []) ++
    wasteToTabGo c 0 b.tableaus

/-- Step 3a: the single top card of tableau `i` to its foundation,
classified and-reveal iff the pile has exactly one face-up card over a
non-empty face-down pile. -/
def tab2FoundationMoves (b : Board) (i : Nat) (src : Tableau) : List Move :=
  match src.topCard with
  | none => []
  | some c =>
    match b.foundations[suitIndex c.suit]? with
    | none => []
    | some f =>
      if f.canAddCard c then
        if src.faceUp.length = 1 ∧ 0 < src.faceDown.length then
          [.tableauToFoundationAndReveal i (suitIndex c.suit) c]
        else
          [.tableauToFoundation i (suitIndex c.suit) c]
      else []

/-- The inner destination loop of step 3b for one source suffix: emit a
move per accepting destination, skipping the source pile itself, and
applying the king-to-empty pruning (skip entirely unless the move reveals
a card, and then emit only the first such move, tracked by `flag`). -/
def tab2TabLoop (i numCards : Nat) (c : Card) (willReveal : Bool) :
    Nat → List Tableau → Bool → List Move
  | _, [], _ => []
  | j, dest :: rest, flag =>
    if i = j then
      tab2TabLoop i numCards c willReveal (j + 1) rest flag
    else if dest.canAddCard c then
      if c.rank = Rank.king ∧ dest.faceUp.isEmpty then
        if ¬ willReveal then
          tab2TabLoop i numCards c willReveal (j + 1) rest flag
        else if flag then
          tab2TabLoop i numCards c willReveal (j + 1) rest flag
        else
          (if willReveal then Move.tableauToTableauAndReveal i j numCards c
           else Move.tableauToTableau i j numCards c) ::
            tab2TabLoop i numCards c willReveal (j + 1) rest true
      else
        (if willReveal then Move.tableauToTableauAndReveal i j numCards c
         else Move.tableauToTableau i j numCards c) ::
          tab2TabLoop i numCards c willReveal (j + 1) rest flag
    else
      tab2TabLoop i numCards c willReveal (j + 1) rest flag

/-- The outer suffix loop of step 3b: for each face-up position `k` of the
source pile, the moved stack has `len - k` cards and reveals a card iff
`k = 0` and the pile has face-down cards. -/
def suffixLoop (b : Board) (i : Nat) (src : Tableau) : Nat → List Card → List Move
  | _, [] => []
  | k, c :: rest =>
    tab2TabLoop i (src.faceUp.length - k) c
        (decide (k = 0 ∧ 0 < src.faceDown.length)) 0 b.tableaus false ++
      suffixLoop b i src (k + 1) rest

/-- Step 3 for tableau `i`: 3a then 3b. -/
def tableauMovesAt (b : Board) (i : Nat) (src : Tableau) : List Move :=
  tab2FoundationMoves b i src ++ suffixLoop b i src 0 src.faceUp

/-- Step 3: iterate over all tableau piles. -/
def tableauMovesGo (b : Board) : Nat → List Tableau → List Move
  | _, [] => []
  | i, t :: rest => tableauMovesAt b i t ++ tableauMovesGo b (i + 1) rest

/-- The foundation-to-tableau scan for one foundation top card. -/
def found2TabGo (fi : Nat) (c : Card) : Nat → List Tableau → List Move
  | _, [] => []
  | j, t :: rest =>
    (if t.canAddCard c then [.foundationToTableau fi j c] else []) ++
      found2TabGo fi c (j + 1) rest

/-- Step 4: for each foundation with a top card, test it against every
tableau. -/
def foundationMovesGo (b : Board) : Nat → List Foundation → List Move
  | _, [] => []
  | i, f :: rest =>
    (match topCard f.cards with
     | none => []
     | some c => found2TabGo i c 0 b.tableaus) ++
      foundationMovesGo b (i + 1) rest

/-- `Board.get_legal_moves`: steps 1-4 concatenated in order. -/
def Board.legalMoves (b : Board) : List Move :=
  stockMoves b ++ wasteMoves b ++ tableauMovesGo b 0 b.tableaus ++
    foundationMovesGo b 0 b.foundations

/-! ### Move execution (`move.py` + `Board.execute_move`) -/

/-- The `while board.waste: board.stock.add_card(board.waste.pop_card())`
loop of `ResetStock.execute`. -/
def resetLoop (stock waste : List Card) : List Card × List Card :=
  match h : waste.getLast? with
  | none => (stock, waste)
  | some c => resetLoop (addCard stock c) waste.dropLast
termination_by waste.length
decreasing_by
  have hne : waste ≠ [] := by
    intro hw
    rw [hw] at h
    simp at h
  have hpos : 0 < waste.length := List.length_pos.mpr hne
  simpa [List.length_dropLast] using Nat.sub_lt hpos Nat.one_pos

/-- `Move.execute`: the per-variant board update. A `none` result models a
Python `IndexError` (popping an empty pile or indexing a missing pile);
the enumerator never produces such a move. -/
def moveExec (b : Board) : Move → Option Board
  | .drawFromStock => do
    let p ← popCardFrom b.stock
    pure { b with stock := p.2, waste := addCard b.waste p.1 }
  | .resetStock =>
    let p := resetLoop b.stock b.waste
    some { b with stock := p.1, waste := p.2 }
  | .wasteToFoundation fi _ => do
    let p ← popCardFrom b.waste
    let f ← b.foundations[fi]?
    pure { b with waste := p.2,
                  foundations := b.foundations.set fi { f with cards := addCard f.cards p.1 } }
  | .wasteToTableau ti _ => do
    let p ← popCardFrom b.waste
    let t ← b.tableaus[ti]?
    pure { b with waste := p.2,
                  tableaus := b.tableaus.set ti { t with faceUp := addCard t.faceUp p.1 } }
  | .tableauToFoundation si fi _ => do
    let t ← b.tableaus[si]?
    let p ← popCardFrom t.faceUp
    let f ← b.foundations[fi]?
    pure { b with tableaus := b.tableaus.set si { t with faceUp := p.2 },
                  foundations := b.foundations.set fi { f with cards := addCard f.cards p.1 } }
  | .tableauToFoundationAndReveal si fi _ => do
    let t ← b.tableaus[si]?
    let p ← popCardFrom t.faceUp
    let f ← b.foundations[fi]?
    pure { b with tableaus := b.tableaus.set si ({ t with faceUp := p.2 }).flipTopCard,
                  foundations := b.foundations.set fi { f with cards := addCard f.cards p.1 } }
  | .foundationToTableau fi ti _ => do
    let f ← b.foundations[fi]?
    let p ← popCardFrom f.cards
    let t ← b.tableaus[ti]?
    pure { b with foundations := b.foundations.set fi { f with cards := p.2 },
                  tableaus := b.tableaus.set ti { t with faceUp := addCard t.faceUp p.1 } }
  | .tableauToTableau si di n _ => do
    let src ← b.tableaus[si]?
    let dst ← b.tableaus[di]?
    let p := src.popStack n
    pure { b with tableaus :=
      (b.tableaus.set si p.2).set di { dst with faceUp := dst.faceUp ++ p.1 } }
  | .tableauToTableauAndReveal si di n _ => do
    let src ← b.tableaus[si]?
    let dst ← b.tableaus[di]?
    let p := src.popStack n
    pure { b with tableaus :=
      (b.tableaus.set si p.2.flipTopCard).set di { dst with faceUp := dst.faceUp ++ p.1 } }

/-- `Board.execute_move`: run the move's own execute, then increment the
move counter. -/
def Board.executeMove (b : Board) (m : Move) : Option Board :=
  (moveExec b m).map fun b' => { b' with moveCount := b'.moveCount + 1 }

/-- `Board.is_win`: false for a board with no tableau piles, else won iff
the total face-down count is at most 2. -/
def Board.isWin (b : Board) : Bool :=
  if b.tableaus.isEmpty then
    false
  else
    decide ((b.tableaus.map fun t => t.faceDown.length).sum ≤ 2)

/-! ### Random scenario setup (`Board.setup_random_scenario`) -/

/-- Step 2 of `setup_random_scenario`: pop the requested number of cards
off the deck's end, appending each to the face-down list chosen by the
(parameterized) random choice for that step. `t` is the step index, the
second argument the remaining count. -/
def distFaceDown (choice : Nat → Fin 7) :
    Nat → Nat → List (List Card) → List Card → List (List Card) × List Card
  | _, 0, piles, deck => (piles, deck)
  | t, r + 1, piles, deck =>
    match deck.getLast? with
    | none => (piles, deck)
    | some c =>
      distFaceDown choice (t + 1) r
        (piles.set (choice t).val (addCard (piles.getD (choice t).val []) c))
        deck.dropLast

/-- Step 3b helper: add the card to the first tableau that accepts it,
returning `none` when no tableau does. -/
def placeOnTableau (c : Card) : List Tableau → Option (List Tableau)
  | [] => none
  | t :: rest =>
    if t.canAddCard c then
      some ({ t with faceUp := addCard t.faceUp c } :: rest)
    else
      (placeOnTableau c rest).map (t :: ·)

/-- Step 3 of `setup_random_scenario` for one card: its matching
foundation if legal, else the first accepting tableau, else the stock.
(The foundation index is always in range for boards built by
`setupRandomScenario`, which has four foundations.) -/
def placeCard (b : Board) (c : Card) : Board :=
  match b.foundations[suitIndex c.suit]? with
  | none => b
  | some f =>
    if f.canAddCard c then
      { b with foundations :=
          b.foundations.set (suitIndex c.suit) { f with cards := addCard f.cards c } }
    else
      match placeOnTableau c b.tableaus with
      | some tabs => { b with tableaus := tabs }
      | none => { b with stock := addCard b.stock c }

/-- `Board.setup_random_scenario`, parameterized by the shuffled deck and
the per-step random pile choice. The method first resets the board via
`self.__init__()` (discarding `b`), then validates the count, raising
(modelled by the `Option String` component) when it is outside [0, 45];
on success it distributes the face-down cards, greedily places the rest,
flips a card on each face-up-empty tableau, and records the state hash. -/
def setupRandomScenario (b : Board) (shuffledDeck : List Card)
    (choice : Nat → Fin 7) (n : Int) : Board × Option String :=
  let b0 := initBoard
  if ¬ (0 ≤ n ∧ n ≤ 45) then
    (b0, some "Number of face-down cards must be between 0 and 45.")
  else
    let d := distFaceDown choice 0 n.toNat (List.replicate 7 []) shuffledDeck
    let b1 := { b0 with tableaus := d.1.map fun fd => { faceDown := fd, faceUp := [] } }
    let b2 := d.2.foldl placeCard b1
    let b3 := { b2 with tableaus := b2.tableaus.map Tableau.flipTopCard }
    ({ b3 with stateHistory := [b3.stateHash] }, none)

/-! ### Playing sequences of enumerator-produced moves -/

/-- Run a sequence of moves, requiring each to be in the enumerator's
output for the board it is applied to. -/
def playLegal (b : Board) : List Move → Option Board
  | [] => some b
  | m :: ms =>
    if m ∈ b.legalMoves then
      (b.executeMove m).bind fun b2 => playLegal b2 ms
    else
      none

/-- All cards of a tableau, hidden then visible. -/
def Tableau.allCards (t : Tableau) : List Card :=
  t.faceDown ++ t.faceUp

/-- Every card on the board: stock, waste, foundations, tableaus. -/
def Board.allCards (b : Board) : List Card :=
  b.stock ++ b.waste ++ (b.foundations.flatMap fun f => f.cards) ++
    b.tableaus.flatMap Tableau.allCards

/-! ### Spec-side predicates (transcribed from the claims' words, for
comparison with the code-side predicates) -/

/-- Claim C2's acceptance predicate exactly as worded: (empty and rank 1)
or (suit matches and rank = top rank + 1). -/
def foundationAcceptsClaim (f : Foundation) (c : Card) : Bool :=
  (f.cards.isEmpty && c.rank.value == 1) ||
    (c.suit == f.suit &&
      match topCard f.cards with
      | some top => c.rank.value == top.rank.value + 1
      | none => false)

/-- Claim C2 amended: the suit must match in the empty case too. -/
def foundationAcceptsAmended (f : Foundation) (c : Card) : Bool :=
  c.suit == f.suit &&
    ((f.cards.isEmpty && c.rank.value == 1) ||
      match topCard f.cards with
      | some top => c.rank.value == top.rank.value + 1
      | none => false)

/-- Claim C3's acceptance predicate as worded: (face-up empty and rank 13)
or (face-up non-empty and opposite color and rank = top rank - 1). -/
def tableauAcceptsClaim (t : Tableau) (c : Card) : Bool :=
  (t.faceUp.isEmpty && c.rank.value == 13) ||
    (match topCard t.faceUp with
     | some top =>
       (c.suit.color != top.suit.color) && (c.rank.value == top.rank.value - 1)
     | none => false)

/-- Claim C5's counted move class: a tableau-to-tableau move (either
variant) of `n` cards out of tableau `i` whose destination tableau has an
empty face-up pile. -/
def isSuffixMoveToEmpty (b : Board) (i n : Nat) : Move → Bool
  | .tableauToTableau si di nc _ =>
    si == i && nc == n &&
      (match b.tableaus[di]? with
       | some d => d.faceUp.isEmpty
       | none => false)
  | .tableauToTableauAndReveal si di nc _ =>
    si == i && nc == n &&
      (match b.tableaus[di]? with
       | some d => d.faceUp.isEmpty
       | none => false)
  | _ => false

/-! ### Concrete example boards used to instantiate the theorems -/

/-- Four empty foundations in the fixed suit order. -/
def exFoundations : List Foundation :=
  foundationSuits.map fun s => { suit := s, cards := [] }

/-- An empty tableau. -/
def exEmptyT : Tableau :=
  { faceDown := [], faceUp := [] }

/-- A board with a king-headed face-up run over a hidden card, plus two
empty tableaus. -/
def exKingRevealBoard : Board :=
  { stock := []
    waste := []
    foundations := exFoundations
    tableaus :=
      [ { faceDown := [⟨.five, .clubs⟩],
          faceUp := [⟨.king, .hearts⟩, ⟨.queen, .spades⟩] },
        exEmptyT, exEmptyT ]
    moveCount := 0
    stateHistory := [] }

/-- The same board without hidden cards under the king run. -/
def exKingPlainBoard : Board :=
  { exKingRevealBoard with
    tableaus :=
      [ { faceDown := [],
          faceUp := [⟨.king, .hearts⟩, ⟨.queen, .spades⟩] },
        exEmptyT, exEmptyT ] }

/-- A board with an empty stock and a two-card waste. -/
def exWasteBoard : Board :=
  { stock := []
    waste := [⟨.ace, .hearts⟩, ⟨.two, .clubs⟩]
    foundations := exFoundations
    tableaus := [exEmptyT]
    moveCount := 0
    stateHistory := [] }

/-- A board with a non-empty stock. -/
def exStockBoard : Board :=
  { exWasteBoard with stock := [⟨.nine, .diamonds⟩], waste := [] }

/-- A one-tableau board with exactly two hidden cards. -/
def exTwoHiddenBoard : Board :=
  { stock := []
    waste := []
    foundations := exFoundations
    tableaus :=
      [ { faceDown := [⟨.ace, .hearts⟩, ⟨.two, .hearts⟩],
          faceUp := [⟨.three, .hearts⟩] } ]
    moveCount := 0
    stateHistory := [] }

/-- A one-tableau board with exactly three hidden cards. -/
def exThreeHiddenBoard : Board :=
  { exTwoHiddenBoard with
    tableaus :=
      [ { faceDown := [⟨.ace, .hearts⟩, ⟨.two, .hearts⟩, ⟨.four, .hearts⟩],
          faceUp := [⟨.three, .hearts⟩] } ] }

/-- A board whose hearts foundation holds ace then two. -/
def exFoundationFullBoard : Board :=
  { initBoard with
    foundations :=
      [ { suit := .hearts, cards := [⟨.ace, .hearts⟩, ⟨.two, .hearts⟩] },
        { suit := .diamonds, cards := [] },
        { suit := .clubs, cards := [] },
        { suit := .spades, cards := [] } ] }

/-- The same board with the below-top content of the hearts foundation
removed: the top cards agree. -/
def exFoundationTopBoard : Board :=
  { initBoard with
    foundations :=
      [ { suit := .hearts, cards := [⟨.two, .hearts⟩] },
        { suit := .diamonds, cards := [] },
        { suit := .clubs, cards := [] },
        { suit := .spades, cards := [] } ] }

/-- A board whose waste holds ace of hearts below two of clubs. -/
def exWasteOrderABoard : Board :=
  { initBoard with waste := [⟨.ace, .hearts⟩, ⟨.two, .clubs⟩] }

/-- The same two waste cards in the opposite order. -/
def exWasteOrderBBoard : Board :=
  { initBoard with waste := [⟨.two, .clubs⟩, ⟨.ace, .hearts⟩] }

/-- A board with one tableau showing the ace of hearts. -/
def exTabABoard : Board :=
  { initBoard with tableaus := [{ faceDown := [], faceUp := [⟨.ace, .hearts⟩] }] }

/-- A board with one tableau showing the two of clubs. -/
def exTabBBoard : Board :=
  { initBoard with tableaus := [{ faceDown := [], faceUp := [⟨.two, .clubs⟩] }] }

/-! ## Helper lemmas -/

lemma topCard_eq_none_iff (l : List Card) : topCard l = none ↔ l = [] := by
  simp [topCard]

lemma rank_value_le (r : Rank) : r.value ≤ 13 := by
  cases r <;> decide

lemma rank_value_eq_one_iff (r : Rank) : r.value = 1 ↔ r = .ace := by
  cases r <;> decide

lemma rank_value_eq_13_iff (r : Rank) : r.value = 13 ↔ r = .king := by
  cases r <;> decide

/-! ## C2: the foundation acceptance predicate -/

/-- C2 counterexample: an ace of the wrong suit on an empty foundation.
The code rejects it (the suit is checked first), while the claim's first
disjunct (empty and rank 1, with no suit condition) accepts it. -/
theorem foundation_accepts_claim_counterexample :
    Foundation.canAddCard { suit := .hearts, cards := [] } { rank := .ace, suit := .spades } ≠
      foundationAcceptsClaim { suit := .hearts, cards := [] } { rank := .ace, suit := .spades } := by
  decide

/-- C2 amended: the foundation's can-accept predicate returns true iff
the card's suit matches the foundation's assigned suit and, in addition,
either the foundation is empty and the card's rank is 1, or the card's
rank equals the foundation's top card's rank plus 1. -/
theorem foundation_accepts_amended (f : Foundation) (c : Card) :
    f.canAddCard c = foundationAcceptsAmended f c := by
  rw [Bool.eq_iff_iff]
  by_cases hs : c.suit = f.suit <;>
    rcases h : topCard f.cards with _ | top
  · have hnil : f.cards = [] := (topCard_eq_none_iff _).mp h
    simp [Foundation.canAddCard, foundationAcceptsAmended, hs, h, hnil,
      topCard, rank_value_eq_one_iff]
  · have hne : ¬ f.cards = [] := by
      intro hn
      rw [hn] at h
      simp [topCard] at h
    simp [Foundation.canAddCard, foundationAcceptsAmended, hs, h,
      List.isEmpty_iff, hne]
  · have hnil : f.cards = [] := (topCard_eq_none_iff _).mp h
    simp [Foundation.canAddCard, foundationAcceptsAmended, hs, h, hnil, topCard]
  · simp [Foundation.canAddCard, foundationAcceptsAmended, hs, h]

/-! ## C3: the tableau acceptance predicate -/

/-- C3: the tableau's can-accept predicate returns true iff (the face-up
sequence is empty and the card's rank is 13) or (the face-up sequence is
non-empty and the colors differ and the rank is the top card's rank minus
one). -/
theorem tableau_accepts_claim (t : Tableau) (c : Card) :
    t.canAddCard c = tableauAcceptsClaim t c := by
  rw [Bool.eq_iff_iff]
  rcases h : Solitaire.topCard t.faceUp with _ | top
  · have hnil : t.faceUp = [] := (topCard_eq_none_iff _).mp h
    simp [Tableau.canAddCard, Tableau.topCard, tableauAcceptsClaim, h, hnil,
      topCard, rank_value_eq_13_iff]
  · have hne : ¬ t.faceUp = [] := by
      intro hn
      rw [hn] at h
      simp [topCard] at h
    simp [Tableau.canAddCard, Tableau.topCard, tableauAcceptsClaim, h,
      List.isEmpty_iff, hne]

/-- C3 witness: an instance of the equivalence with the acceptance true. -/
theorem tableau_accepts_claim_witness :
    Tableau.canAddCard { faceDown := [], faceUp := [] } { rank := .king, suit := .hearts } =
      tableauAcceptsClaim { faceDown := [], faceUp := [] } { rank := .king, suit := .hearts } :=
  tableau_accepts_claim { faceDown := [], faceUp := [] } { rank := .king, suit := .hearts }

/-! ## C4: the win predicate -/

/-- C4 counterexample: the freshly constructed board has no tableau piles,
zero (≤ 2) total hidden cards, yet reports not won. -/
theorem is_win_claim_counterexample :
    ¬ (initBoard.isWin = true ↔
        (initBoard.tableaus.map fun t => t.faceDown.length).sum ≤ 2) := by
  decide

/-- C4 amended: for every board with at least one tableau pile, is_win is
true exactly when the total hidden-card count is at most 2. -/
theorem is_win_amended (b : Board) (h : b.tableaus ≠ []) :
    b.isWin = true ↔ (b.tableaus.map fun t => t.faceDown.length).sum ≤ 2 := by
  simp [Board.isWin, List.isEmpty_iff, h]

/-- C4 witness: two hidden cards report won, three report not won. -/
theorem is_win_amended_witness :
    exTwoHiddenBoard.isWin = true ∧ ¬ exThreeHiddenBoard.isWin = true :=
  ⟨(is_win_amended exTwoHiddenBoard (by decide)).mpr (by decide),
   fun hw => absurd ((is_win_amended exThreeHiddenBoard (by decide)).mp hw) (by decide)⟩

/-! ## C10: pop_stack -/

/-- C10: for 1 ≤ n ≤ the face-up count, pop_stack removes and returns the
top n face-up cards in order (the remainder concatenated with the result
is the original face-up sequence, and the face-down pile is untouched);
pop_stack 0 removes and returns the entire face-up sequence. -/
theorem pop_stack_claim (t : Tableau) (n : Nat) :
    (1 ≤ n → n ≤ t.faceUp.length →
      (t.popStack n).1.length = n ∧
      (t.popStack n).2.faceUp ++ (t.popStack n).1 = t.faceUp ∧
      (t.popStack n).2.faceDown = t.faceDown) ∧
    t.popStack 0 = (t.faceUp, { t with faceUp := [] }) := by
  constructor
  · intro h1 h2
    have hn : ¬ n = 0 := by omega
    refine ⟨?_, ?_, ?_⟩
    · simp [Tableau.popStack, hn, List.length_drop]
      omega
    · simp [Tableau.popStack, hn, List.take_append_drop]
    · simp [Tableau.popStack]
  · simp [Tableau.popStack]

/-- C10 witness: popping 1 of 2 face-up cards, at a concrete tableau. -/
theorem pop_stack_claim_witness :
    ((Tableau.popStack { faceDown := [], faceUp := [⟨.ace, .hearts⟩, ⟨.two, .clubs⟩] } 1).1.length = 1 ∧
      (Tableau.popStack { faceDown := [], faceUp := [⟨.ace, .hearts⟩, ⟨.two, .clubs⟩] } 1).2.faceUp ++
          (Tableau.popStack { faceDown := [], faceUp := [⟨.ace, .hearts⟩, ⟨.two, .clubs⟩] } 1).1 =
        [⟨.ace, .hearts⟩, ⟨.two, .clubs⟩] ∧
      (Tableau.popStack { faceDown := [], faceUp := [⟨.ace, .hearts⟩, ⟨.two, .clubs⟩] } 1).2.faceDown = []) :=
  (pop_stack_claim { faceDown := [], faceUp := [⟨.ace, .hearts⟩, ⟨.two, .clubs⟩] } 1).1
    (by decide) (by decide)

/-! ## C6: reset-stock execution -/

/-- The reset loop moves the whole waste onto the stock in reverse order. -/
lemma resetLoop_spec (stock waste : List Card) :
    resetLoop stock waste = (stock ++ waste.reverse, []) := by
  induction waste using List.reverseRecOn generalizing stock with
  | nil => rw [resetLoop]; simp
  | append_singleton l a ih =>
    rw [resetLoop]
    split
    · next heq => simp [List.getLast?_concat] at heq
    · next c heq =>
        rw [List.getLast?_concat] at heq
        cases heq
        simp [List.dropLast_concat, addCard, ih]

/-- C6: executing reset-stock on a board with an empty draw pile empties
the waste and makes the stock the reverse of the prior waste. -/
theorem reset_stock_claim (b : Board) (h : b.stock = []) :
    b.executeMove .resetStock =
      some { b with stock := b.waste.reverse, waste := [],
                    moveCount := b.moveCount + 1 } := by
  simp [Board.executeMove, moveExec, resetLoop_spec, h]

/-- C6 witness: a concrete two-card waste. -/
theorem reset_stock_claim_witness :
    exWasteBoard.executeMove .resetStock =
      some { exWasteBoard with stock := exWasteBoard.waste.reverse, waste := [],
                               moveCount := exWasteBoard.moveCount + 1 } :=
  reset_stock_claim exWasteBoard rfl

/-! ## C9: setup_random_scenario validation -/

/-- C9 counterexample: calling with 46 on a board with move count 1 does
raise, but the board has been reset (it differs from its prior state). -/
theorem setup_random_scenario_counterexample :
    (setupRandomScenario { initBoard with moveCount := 1 } [] (fun _ => 0) 46).2.isSome = true ∧
      (setupRandomScenario { initBoard with moveCount := 1 } [] (fun _ => 0) 46).1 ≠
        { initBoard with moveCount := 1 } := by
  decide

/-- C9 amended: the call raises exactly when n is outside [0, 45], but on
a raise the board has already been reset to the freshly-initialized state
(the reset precedes validation), rather than being left unmodified. -/
theorem setup_random_scenario_amended (b : Board) (deck : List Card)
    (choice : Nat → Fin 7) (n : Int) :
    ((setupRandomScenario b deck choice n).2.isSome ↔ ¬ (0 ≤ n ∧ n ≤ 45)) ∧
      (¬ (0 ≤ n ∧ n ≤ 45) → (setupRandomScenario b deck choice n).1 = initBoard) := by
  by_cases h : 0 ≤ n ∧ n ≤ 45 <;> simp [setupRandomScenario, h]

/-- C9 witness: the out-of-range call at 50 leaves the reset board. -/
theorem setup_random_scenario_amended_witness :
    (setupRandomScenario initBoard [] (fun _ => 0) 50).1 = initBoard :=
  (setup_random_scenario_amended initBoard [] (fun _ => 0) 50).2 (by decide)

/-! ## C8: state-fingerprint sensitivity -/

/-- C8: boards identical up to foundation contents below the top cards
share a fingerprint; boards whose waste sequences differ, or whose
face-up sequence differs at some tableau index, have different
fingerprints. -/
theorem state_hash_claim :
    (∀ b1 b2 : Board,
        b1.stock = b2.stock → b1.waste = b2.waste → b1.tableaus = b2.tableaus →
        b1.foundations.map (fun f => topCard f.cards) =
          b2.foundations.map (fun f => topCard f.cards) →
        b1.stateHash = b2.stateHash) ∧
    (∀ b1 b2 : Board, b1.waste ≠ b2.waste → b1.stateHash ≠ b2.stateHash) ∧
    (∀ b1 b2 : Board, ∀ (j : Nat) (t1 t2 : Tableau),
        b1.tableaus[j]? = some t1 → b2.tableaus[j]? = some t2 →
        t1.faceUp ≠ t2.faceUp → b1.stateHash ≠ b2.stateHash) := by
  refine ⟨?_, ?_, ?_⟩
  · intro b1 b2 h1 h2 h3 h4
    simp [Board.stateHash, h1, h2, h3, h4]
  · intro b1 b2 hw heq
    exact hw (congrArg StateHash.wasteState heq)
  · intro b1 b2 j t1 t2 h1 h2 hne heq
    have hmap := congrArg StateHash.tableauStates heq
    have hj := congrArg (fun l => l[j]?) hmap
    simp only [Board.stateHash, List.getElem?_map, h1, h2, Option.map_some]  at hj
    exact hne (congrArg Prod.snd (Option.some.inj hj))

/-- C8 witness: concrete boards exercising all three parts. -/
theorem state_hash_claim_witness :
    exFoundationFullBoard.stateHash = exFoundationTopBoard.stateHash ∧
      exWasteOrderABoard.stateHash ≠ exWasteOrderBBoard.stateHash ∧
      exTabABoard.stateHash ≠ exTabBBoard.stateHash :=
  ⟨state_hash_claim.1 exFoundationFullBoard exFoundationTopBoard rfl rfl rfl (by decide),
   state_hash_claim.2.1 exWasteOrderABoard exWasteOrderBBoard (by decide),
   state_hash_claim.2.2 exTabABoard exTabBBoard 0
     { faceDown := [], faceUp := [⟨.ace, .hearts⟩] }
     { faceDown := [], faceUp := [⟨.two, .clubs⟩] } rfl rfl (by decide)⟩

/-! ## Shape lemmas about the enumerator's sections -/

lemma mem_stockMoves {b : Board} {m : Move} (h : m ∈ stockMoves b) :
    m = .drawFromStock ∨ m = .resetStock := by
  by_cases h1 : b.stock.isEmpty <;> by_cases h2 : b.waste.isEmpty <;>
    simp [stockMoves, h1, h2] at h <;> tauto

lemma mem_wasteToTabGo {c : Card} {m : Move} :
    ∀ {i : Nat} {ts : List Tableau}, m ∈ wasteToTabGo c i ts →
      ∃ j, m = .wasteToTableau j c := by
  intro i ts
  induction ts generalizing i with
  | nil => intro h; simp [wasteToTabGo] at h
  | cons t rest ih =>
    intro h
    rw [wasteToTabGo] at h
    rcases List.mem_append.mp h with h1 | h2
    · by_cases hc : t.canAddCard c
      · simp [hc] at h1
        exact ⟨i, h1⟩
      · simp [hc] at h1
    · exact ih h2

lemma mem_wasteMoves {b : Board} {m : Move} (h : m ∈ wasteMoves b) :
    (∃ fi c, m = .wasteToFoundation fi c) ∨ ∃ j c, m = .wasteToTableau j c := by
  rcases htop : topCard b.waste with _ | c
  · simp only [wasteMoves, htop] at h
    simp at h
  · simp only [wasteMoves, htop] at h
    rcases List.mem_append.mp h with h1 | h2
    · rcases hf : b.foundations[suitIndex c.suit]? with _ | f
      · rw [hf] at h1
        simp at h1
      · rw [hf] at h1
        by_cases hca : f.canAddCard c
        · simp [hca] at h1
          exact .inl ⟨_, _, h1⟩
        · simp [hca] at h1
    · rcases mem_wasteToTabGo h2 with ⟨j, hj⟩
      exact .inr ⟨j, c, hj⟩

lemma mem_tab2FoundationMoves {b : Board} {i : Nat} {src : Tableau} {m : Move}
    (h : m ∈ tab2FoundationMoves b i src) :
    ∃ fi cc, m = .tableauToFoundation i fi cc ∨ m = .tableauToFoundationAndReveal i fi cc := by
  simp only [tab2FoundationMoves] at h
  split at h
  · simp at h
  · split at h
    · simp at h
    · split at h
      · split at h
        · exact ⟨_, _, .inr (by simpa using h)⟩
        · exact ⟨_, _, .inl (by simpa using h)⟩
      · simp at h

lemma mem_tab2TabLoop {i n : Nat} {c : Card} {wr : Bool} {m : Move} :
    ∀ {j : Nat} {ts : List Tableau} {flag : Bool}, m ∈ tab2TabLoop i n c wr j ts flag →
      ∃ d, d ≠ i ∧ (m = .tableauToTableau i d n c ∨ m = .tableauToTableauAndReveal i d n c) := by
  intro j ts flag
  induction ts generalizing j flag with
  | nil => intro h; simp [tab2TabLoop] at h
  | cons dest rest ih =>
    intro h
    rw [tab2TabLoop] at h
    split at h
    · exact ih h
    · next hij =>
      split at h
      · split at h
        · split at h
          · exact ih h
          · split at h
            · exact ih h
            · rcases List.mem_cons.mp h with rfl | h
              · refine ⟨j, fun hji => hij hji.symm, ?_⟩
                cases wr <;> simp
              · exact ih h
        · rcases List.mem_cons.mp h with rfl | h
          · refine ⟨j, fun hji => hij hji.symm, ?_⟩
            cases wr <;> simp
          · exact ih h
      · exact ih h

lemma mem_suffixLoop {b : Board} {i : Nat} {src : Tableau} {m : Move} :
    ∀ {k : Nat} {cards : List Card}, m ∈ suffixLoop b i src k cards →
      ∃ d nc cc, d ≠ i ∧
        (m = .tableauToTableau i d nc cc ∨ m = .tableauToTableauAndReveal i d nc cc) := by
  intro k cards
  induction cards generalizing k with
  | nil => intro h; simp [suffixLoop] at h
  | cons c rest ih =>
    intro h
    rw [suffixLoop] at h
    rcases List.mem_append.mp h with h1 | h2
    · rcases mem_tab2TabLoop h1 with ⟨d, hd, hsh⟩
      exact ⟨d, _, _, hd, hsh⟩
    · exact ih h2

lemma mem_tableauMovesGo {b : Board} {m : Move} :
    ∀ {i : Nat} {ts : List Tableau}, m ∈ tableauMovesGo b i ts →
      (∃ si fi cc, m = .tableauToFoundation si fi cc ∨ m = .tableauToFoundationAndReveal si fi cc) ∨
      (∃ si d nc cc, d ≠ si ∧
        (m = .tableauToTableau si d nc cc ∨ m = .tableauToTableauAndReveal si d nc cc)) := by
  intro i ts
  induction ts generalizing i with
  | nil => intro h; simp [tableauMovesGo] at h
  | cons t rest ih =>
    intro h
    rw [tableauMovesGo] at h
    rcases List.mem_append.mp h with h1 | h2
    · rcases List.mem_append.mp (by simpa [tableauMovesAt] using h1) with ha | hb
      · rcases mem_tab2FoundationMoves ha with ⟨fi, cc, hsh⟩
        exact .inl ⟨i, fi, cc, hsh⟩
      · rcases mem_suffixLoop hb with ⟨d, nc, cc, hd, hsh⟩
        exact .inr ⟨i, d, nc, cc, hd, hsh⟩
    · exact ih h2

lemma mem_found2TabGo {fi : Nat} {c : Card} {m : Move} :
    ∀ {j : Nat} {ts : List Tableau}, m ∈ found2TabGo fi c j ts →
      ∃ d, m = .foundationToTableau fi d c := by
  intro j ts
  induction ts generalizing j with
  | nil => intro h; simp [found2TabGo] at h
  | cons t rest ih =>
    intro h
    rw [found2TabGo] at h
    rcases List.mem_append.mp h with h1 | h2
    · by_cases hc : t.canAddCard c
      · simp [hc] at h1
        exact ⟨j, h1⟩
      · simp [hc] at h1
    · exact ih h2

lemma mem_foundationMovesGo {b : Board} {m : Move} :
    ∀ {i : Nat} {fs : List Foundation}, m ∈ foundationMovesGo b i fs →
      ∃ sfi d cc, m = .foundationToTableau sfi d cc := by
  intro i fs
  induction fs generalizing i with
  | nil => intro h; simp [foundationMovesGo] at h
  | cons f rest ih =>
    intro h
    rw [foundationMovesGo] at h
    rcases List.mem_append.mp h with h1 | h2
    · split at h1
      · simp at h1
      · rcases mem_found2TabGo h1 with ⟨d, hd⟩
        exact ⟨i, d, _, hd⟩
    · exact ih h2

/-! ## C7: draw and reset moves in the enumeration -/

lemma resetStock_not_mem_rest (b : Board) :
    Move.resetStock ∉ wasteMoves b ∧
      Move.resetStock ∉ tableauMovesGo b 0 b.tableaus ∧
      Move.resetStock ∉ foundationMovesGo b 0 b.foundations := by
  refine ⟨fun h => ?_, fun h => ?_, fun h => ?_⟩
  · rcases mem_wasteMoves h with ⟨_, _, h⟩ | ⟨_, _, h⟩ <;> simp at h
  · rcases mem_tableauMovesGo h with ⟨_, _, _, h | h⟩ | ⟨_, _, _, _, _, h | h⟩ <;> simp at h
  · rcases mem_foundationMovesGo h with ⟨_, _, _, h⟩
    simp at h

lemma drawFromStock_not_mem_rest (b : Board) :
    Move.drawFromStock ∉ wasteMoves b ∧
      Move.drawFromStock ∉ tableauMovesGo b 0 b.tableaus ∧
      Move.drawFromStock ∉ foundationMovesGo b 0 b.foundations := by
  refine ⟨fun h => ?_, fun h => ?_, fun h => ?_⟩
  · rcases mem_wasteMoves h with ⟨_, _, h⟩ | ⟨_, _, h⟩ <;> simp at h
  · rcases mem_tableauMovesGo h with ⟨_, _, _, h | h⟩ | ⟨_, _, _, _, _, h | h⟩ <;> simp at h
  · rcases mem_foundationMovesGo h with ⟨_, _, _, h⟩
    simp at h

/-- C7: with an empty draw pile and non-empty waste the enumeration holds
no draw move and exactly one reset move; with a non-empty draw pile it
holds a draw move and no reset move. -/
theorem stock_reset_moves_claim (b : Board) :
    (b.stock = [] → b.waste ≠ [] →
      b.legalMoves.count .drawFromStock = 0 ∧ b.legalMoves.count .resetStock = 1) ∧
    (b.stock ≠ [] →
      .drawFromStock ∈ b.legalMoves ∧ b.legalMoves.count .resetStock = 0) := by
  have hrw := (resetStock_not_mem_rest b).1
  have hrt := (resetStock_not_mem_rest b).2.1
  have hrf := (resetStock_not_mem_rest b).2.2
  have hdw := (drawFromStock_not_mem_rest b).1
  have hdt := (drawFromStock_not_mem_rest b).2.1
  have hdf := (drawFromStock_not_mem_rest b).2.2
  constructor
  · intro h1 h2
    have hs : stockMoves b = [.resetStock] := by
      simp [stockMoves, h1, List.isEmpty_iff, h2]
    constructor
    · simp [Board.legalMoves, List.count_append, hs,
        List.count_eq_zero.mpr hdw, List.count_eq_zero.mpr hdt, List.count_eq_zero.mpr hdf]
    · simp [Board.legalMoves, List.count_append, hs,
        List.count_eq_zero.mpr hrw, List.count_eq_zero.mpr hrt, List.count_eq_zero.mpr hrf]
  · intro h1
    have hs : stockMoves b = [.drawFromStock] := by
      simp [stockMoves, List.isEmpty_iff, h1]
    constructor
    · simp [Board.legalMoves, hs]
    · simp [Board.legalMoves, List.count_append, hs,
        List.count_eq_zero.mpr hrw, List.count_eq_zero.mpr hrt, List.count_eq_zero.mpr hrf]

/-- C7 witness: the empty-stock board and the non-empty-stock board. -/
theorem stock_reset_moves_claim_witness :
    (exWasteBoard.legalMoves.count .drawFromStock = 0 ∧
      exWasteBoard.legalMoves.count .resetStock = 1) ∧
    (.drawFromStock ∈ exStockBoard.legalMoves ∧
      exStockBoard.legalMoves.count .resetStock = 0) :=
  ⟨(stock_reset_moves_claim exWasteBoard).1 rfl (by decide),
   (stock_reset_moves_claim exStockBoard).2 (by decide)⟩

/-! ## C5: king-to-empty pruning -/

/-- A king is accepted by a tableau exactly when the tableau's face-up
pile is empty (no top card can be one rank above a king). -/
lemma canAddCard_king_iff (t : Tableau) {c : Card} (hk : c.rank = Rank.king) :
    t.canAddCard c = true ↔ t.faceUp = [] := by
  rcases h : t.topCard with _ | top
  · have hnil : t.faceUp = [] := (topCard_eq_none_iff _).mp h
    simp [Tableau.canAddCard, h, hk, hnil]
  · have hne : t.faceUp ≠ [] := by
      intro hn
      unfold Tableau.topCard at h
      rw [hn] at h
      simp [topCard] at h
    have hv : ¬ (c.rank.value = top.rank.value - 1) := by
      rw [hk]
      have := rank_value_le top.rank
      show ¬ ((13 : Nat) = top.rank.value - 1)
      omega
    simp [Tableau.canAddCard, h, hv, hne]

/-- Generic indexing facts for a `drop` that uncovered a cons cell. -/
lemma drop_eq_cons_facts {α : Type} {l : List α} {j : Nat} {x : α} {rest : List α}
    (h : l.drop j = x :: rest) : l[j]? = some x ∧ l.drop (j + 1) = rest := by
  constructor
  · have h0 := List.getElem?_drop l j 0
    rw [h] at h0
    simpa using h0.symm
  · have h1 : l.drop (j + 1) = (l.drop j).drop 1 := (List.drop_drop 1 j l).symm
    rw [h] at h1
    simpa using h1

/-- With a king in hand and no reveal, the destination loop emits
nothing: every accepting destination is an empty pile, which the pruning
skips. -/
lemma tab2TabLoop_king_noreveal {i n : Nat} {c : Card} (hk : c.rank = Rank.king) :
    ∀ (j : Nat) (ts : List Tableau) (flag : Bool),
      tab2TabLoop i n c false j ts flag = [] := by
  intro j ts flag
  induction ts generalizing j flag with
  | nil => rw [tab2TabLoop]
  | cons dest rest ih =>
    rw [tab2TabLoop]
    split
    · exact ih _ _
    · split
      · next hca =>
        have hfu : dest.faceUp = [] := (canAddCard_king_iff dest hk).mp hca
        rw [if_pos ⟨hk, by simp [hfu]⟩]
        rw [if_pos (by simp)]
        exact ih _ _
      · exact ih _ _

/-- With a king in hand and the per-suffix flag already set, the
destination loop emits nothing further. -/
lemma tab2TabLoop_king_flagged {i n : Nat} {c : Card} (hk : c.rank = Rank.king) {wr : Bool} :
    ∀ (j : Nat) (ts : List Tableau),
      tab2TabLoop i n c wr j ts true = [] := by
  intro j ts
  induction ts generalizing j with
  | nil => rw [tab2TabLoop]
  | cons dest rest ih =>
    rw [tab2TabLoop]
    split
    · exact ih _
    · split
      · next hca =>
        have hfu : dest.faceUp = [] := (canAddCard_king_iff dest hk).mp hca
        rw [if_pos ⟨hk, by simp [hfu]⟩]
        split
        · exact ih _
        · rw [if_pos rfl]
          exact ih _
      · exact ih _

/-- A destination loop run for a different source index or a different
stack size contributes nothing to the counted move class. -/
lemma countP_tab2TabLoop_other {b : Board} {i n i2 n2 : Nat} {c : Card} {wr : Bool}
    (hne : i2 ≠ i ∨ n2 ≠ n) (j : Nat) (ts : List Tableau) (flag : Bool) :
    (tab2TabLoop i2 n2 c wr j ts flag).countP (isSuffixMoveToEmpty b i n) = 0 := by
  rw [List.countP_eq_zero]
  intro m hm
  rcases mem_tab2TabLoop hm with ⟨d, hd, rfl | rfl⟩ <;>
    rcases hne with hne | hne <;>
      simp [isSuffixMoveToEmpty, hne]

/-- The single-top-card-to-foundation scan contributes nothing to the
counted class. -/
lemma countP_tab2FoundationMoves_zero {b : Board} {i n i2 : Nat} {src : Tableau} :
    (tab2FoundationMoves b i2 src).countP (isSuffixMoveToEmpty b i n) = 0 := by
  rw [List.countP_eq_zero]
  intro m hm
  rcases mem_tab2FoundationMoves hm with ⟨fi, cc, rfl | rfl⟩ <;>
    simp [isSuffixMoveToEmpty]

/-- A suffix loop over a pile other than `i` contributes nothing to the
counted class. -/
lemma countP_suffixLoop_other_src {b : Board} {i n i2 : Nat} {src : Tableau}
    (hne : i2 ≠ i) (k : Nat) (cards : List Card) :
    (suffixLoop b i2 src k cards).countP (isSuffixMoveToEmpty b i n) = 0 := by
  rw [List.countP_eq_zero]
  intro m hm
  rcases mem_suffixLoop hm with ⟨d, nc, cc, hd, rfl | rfl⟩ <;>
    simp [isSuffixMoveToEmpty, hne]

/-- The stock, waste and foundation sections contribute nothing to the
counted class. -/
lemma countP_nonTableau_zero (b : Board) (i n : Nat) :
    (stockMoves b).countP (isSuffixMoveToEmpty b i n) = 0 ∧
      (wasteMoves b).countP (isSuffixMoveToEmpty b i n) = 0 ∧
      (foundationMovesGo b 0 b.foundations).countP (isSuffixMoveToEmpty b i n) = 0 := by
  refine ⟨?_, ?_, ?_⟩ <;> rw [List.countP_eq_zero] <;> intro m hm
  · rcases mem_stockMoves hm with rfl | rfl <;> simp [isSuffixMoveToEmpty]
  · rcases mem_wasteMoves hm with ⟨_, _, rfl⟩ | ⟨_, _, rfl⟩ <;> simp [isSuffixMoveToEmpty]
  · rcases mem_foundationMovesGo hm with ⟨_, _, _, rfl⟩
    simp [isSuffixMoveToEmpty]

lemma getElem?_some_lt {α : Type} {l : List α} {n : Nat} {x : α}
    (h : l[n]? = some x) : n < l.length := by
  by_contra hge
  rw [List.getElem?_eq_none (by omega)] at h
  exact Option.noConfusion h

/-- With a king in hand, a reveal pending and the flag still clear, the
destination loop emits exactly one counted move provided some other
tableau at an index at or past the cursor has an empty face-up pile. -/
lemma countP_tab2TabLoop_king_one {b : Board} {i n : Nat} {c : Card} (hk : c.rank = Rank.king) :
    ∀ (j : Nat) (ts : List Tableau), ts = b.tableaus.drop j →
      (∃ jd d, b.tableaus[jd]? = some d ∧ jd ≠ i ∧ j ≤ jd ∧ d.faceUp = []) →
      (tab2TabLoop i n c true j ts false).countP (isSuffixMoveToEmpty b i n) = 1 := by
  intro j ts
  induction ts generalizing j with
  | nil =>
    rintro hts ⟨jd, d, hjd, hne, hle, hfu⟩
    exfalso
    have hlt : jd < b.tableaus.length := getElem?_some_lt hjd
    have h0 := congrArg List.length hts
    simp [List.length_drop] at h0
    omega
  | cons dest rest ih =>
    intro hts hex
    obtain ⟨hj, hrest⟩ := drop_eq_cons_facts hts.symm
    rw [tab2TabLoop]
    by_cases hij : i = j
    · rw [if_pos hij]
      obtain ⟨jd, d, hjd, hne, hle, hfud⟩ := hex
      exact ih (j + 1) hrest.symm ⟨jd, d, hjd, hne, by omega, hfud⟩
    · rw [if_neg hij]
      by_cases hfu : dest.faceUp = []
      · have hca : dest.canAddCard c = true := (canAddCard_king_iff dest hk).mpr hfu
        rw [if_pos hca, if_pos ⟨hk, by simp [hfu]⟩,
          if_neg (by simp), if_neg (by simp)]
        rw [List.countP_cons, tab2TabLoop_king_flagged hk (j + 1) rest]
        simp [isSuffixMoveToEmpty, hj, hfu]
      · have hca : ¬ dest.canAddCard c = true := by
          intro hca
          exact hfu ((canAddCard_king_iff dest hk).mp hca)
        rw [if_neg hca]
        obtain ⟨jd, d, hjd, hne, hle, hfud⟩ := hex
        have hjd2 : j + 1 ≤ jd := by
          rcases Nat.eq_or_lt_of_le hle with heq | hlt

          · exfalso
            rw [← heq] at hjd
            rw [hj] at hjd
            exact hfu (Option.some.inj hjd ▸ hfud)
          · omega
        exact ih (j + 1) hrest.symm ⟨jd, d, hjd, hne, hjd2, hfud⟩

/-- Suffix loops past the target position contribute nothing: their stack
sizes all differ from the target size. -/
lemma countP_suffixLoop_past {b : Board} {i : Nat} {src : Tableau} {kk : Nat} :
    ∀ (k : Nat) (cards : List Card), cards = src.faceUp.drop k → kk < k →
      (suffixLoop b i src k cards).countP
        (isSuffixMoveToEmpty b i (src.faceUp.length - kk)) = 0 := by
  intro k cards
  induction cards generalizing k with
  | nil => intro _ _; simp [suffixLoop]
  | cons c2 rest ih =>
    intro hts hlt
    obtain ⟨hk2, hrest⟩ := drop_eq_cons_facts hts.symm
    have hklen : k < src.faceUp.length := getElem?_some_lt hk2
    rw [suffixLoop, List.countP_append,
      countP_tab2TabLoop_other (.inr (by omega)) 0 b.tableaus false,
      ih (k + 1) hrest.symm (by omega)]

/-- The full suffix loop's count equals the count of the destination loop
run at the king's position alone. -/
lemma countP_suffixLoop_main {b : Board} {i : Nat} {src : Tableau} {kk : Nat} {c : Card}
    (hc : src.faceUp[kk]? = some c) :
    ∀ (k : Nat) (cards : List Card), cards = src.faceUp.drop k → k ≤ kk →
      (suffixLoop b i src k cards).countP (isSuffixMoveToEmpty b i (src.faceUp.length - kk)) =
        (tab2TabLoop i (src.faceUp.length - kk) c
            (decide (kk = 0 ∧ 0 < src.faceDown.length)) 0 b.tableaus false).countP
          (isSuffixMoveToEmpty b i (src.faceUp.length - kk)) := by
  intro k cards
  induction cards generalizing k with
  | nil =>
    intro hts hle
    exfalso
    have hkklen := getElem?_some_lt hc
    have h0 := congrArg List.length hts
    simp [List.length_drop] at h0
    omega
  | cons c2 rest ih =>
    intro hts hle
    obtain ⟨hk2, hrest⟩ := drop_eq_cons_facts hts.symm
    rw [suffixLoop, List.countP_append]
    by_cases hkkk : k = kk
    · subst hkkk
      have hcc : c2 = c := by
        rw [hk2] at hc
        exact Option.some.inj hc
      subst hcc
      rw [countP_suffixLoop_past (k + 1) rest hrest.symm (by omega), Nat.add_zero]
    · have hklen : kk < src.faceUp.length := getElem?_some_lt hc
      rw [countP_tab2TabLoop_other (.inr (by omega)) 0 b.tableaus false,
        ih (k + 1) hrest.symm (by omega), Nat.zero_add]

/-- Tableau sections past the source pile contribute nothing: their
source indices all differ from the target index. -/
lemma countP_tableauMovesGo_high {b : Board} {i n : Nat} :
    ∀ (i0 : Nat) (ts : List Tableau), i < i0 →
      (tableauMovesGo b i0 ts).countP (isSuffixMoveToEmpty b i n) = 0 := by
  intro i0 ts
  induction ts generalizing i0 with
  | nil => intro _; simp [tableauMovesGo]
  | cons t rest ih =>
    intro hlt
    rw [tableauMovesGo, List.countP_append, tableauMovesAt, List.countP_append,
      countP_tab2FoundationMoves_zero,
      countP_suffixLoop_other_src (by omega) 0 t.faceUp,
      ih (i0 + 1) (by omega)]

/-- The whole tableau section's count equals the count of the source
pile's own suffix loop. -/
lemma countP_tableauMovesGo_main {b : Board} {i n : Nat} {src : Tableau}
    (hsrc : b.tableaus[i]? = some src) :
    ∀ (i0 : Nat) (ts : List Tableau), ts = b.tableaus.drop i0 → i0 ≤ i →
      (tableauMovesGo b i0 ts).countP (isSuffixMoveToEmpty b i n) =
        (suffixLoop b i src 0 src.faceUp).countP (isSuffixMoveToEmpty b i n) := by
  intro i0 ts
  induction ts generalizing i0 with
  | nil =>
    intro hts hle
    exfalso
    have hlt := getElem?_some_lt hsrc
    have h0 := congrArg List.length hts
    simp [List.length_drop] at h0
    omega
  | cons t rest ih =>
    intro hts hle
    obtain ⟨hj, hrest⟩ := drop_eq_cons_facts hts.symm
    rw [tableauMovesGo, List.countP_append, tableauMovesAt, List.countP_append,
      countP_tab2FoundationMoves_zero]
    by_cases hii : i0 = i
    · subst hii
      have ht : t = src := by
        rw [hj] at hsrc
        exact Option.some.inj hsrc
      subst ht
      rw [countP_tableauMovesGo_high (i0 + 1) rest (by omega)]
      omega
    · have hlt : i0 < i := by omega
      rw [countP_suffixLoop_other_src (by omega) 0 t.faceUp,
        ih (i0 + 1) hrest.symm (by omega)]
      omega

/-- C5: for a movable suffix headed by a king at face-up position k of
tableau i, with at least one other face-up-empty tableau present: the
enumeration holds exactly one tableau-to-tableau move of that suffix to
an empty tableau when moving it would reveal a hidden card, and none
otherwise. -/
theorem king_to_empty_pruning (b : Board) (i k : Nat) (src : Tableau) (c : Card)
    (hsrc : b.tableaus[i]? = some src) (hc : src.faceUp[k]? = some c)
    (hk : c.rank = Rank.king)
    (hempty : ∃ jd d, b.tableaus[jd]? = some d ∧ jd ≠ i ∧ d.faceUp = []) :
    ((k = 0 ∧ src.faceDown ≠ []) →
      b.legalMoves.countP (isSuffixMoveToEmpty b i (src.faceUp.length - k)) = 1) ∧
    (¬ (k = 0 ∧ src.faceDown ≠ []) →
      b.legalMoves.countP (isSuffixMoveToEmpty b i (src.faceUp.length - k)) = 0) := by
  obtain ⟨hz1, hz2, hz3⟩ := countP_nonTableau_zero b i (src.faceUp.length - k)
  have hdecomp : b.legalMoves.countP (isSuffixMoveToEmpty b i (src.faceUp.length - k)) =
      (tab2TabLoop i (src.faceUp.length - k) c
          (decide (k = 0 ∧ 0 < src.faceDown.length)) 0 b.tableaus false).countP
        (isSuffixMoveToEmpty b i (src.faceUp.length - k)) := by
    rw [Board.legalMoves, List.countP_append, List.countP_append, List.countP_append,
      hz1, hz2, hz3,
      countP_tableauMovesGo_main hsrc 0 b.tableaus (List.drop_zero _).symm (by omega),
      countP_suffixLoop_main hc 0 src.faceUp (List.drop_zero _).symm (by omega)]
    omega
  constructor
  · intro hrev
    have hwr : decide (k = 0 ∧ 0 < src.faceDown.length) = true := by
      rw [decide_eq_true_eq]
      exact ⟨hrev.1, List.length_pos.mpr hrev.2⟩
    rw [hdecomp, hwr]
    obtain ⟨jd, d, h1, h2, h3⟩ := hempty
    exact countP_tab2TabLoop_king_one hk 0 b.tableaus (List.drop_zero _).symm
      ⟨jd, d, h1, h2, Nat.zero_le _, h3⟩
  · intro hrev
    have hwr : decide (k = 0 ∧ 0 < src.faceDown.length) = false := by
      rw [decide_eq_false_iff_not]
      rintro ⟨ha, hb⟩
      exact hrev ⟨ha, by simpa [← List.length_pos] using hb⟩
    rw [hdecomp, hwr, tab2TabLoop_king_noreveal hk 0 b.tableaus false]
    simp

/-- C5 witness: the concrete reveal and non-reveal king boards. -/
theorem king_to_empty_pruning_witness :
    exKingRevealBoard.legalMoves.countP (isSuffixMoveToEmpty exKingRevealBoard 0 2) = 1 ∧
      exKingPlainBoard.legalMoves.countP (isSuffixMoveToEmpty exKingPlainBoard 0 2) = 0 :=
  ⟨(king_to_empty_pruning exKingRevealBoard 0 0
      { faceDown := [⟨.five, .clubs⟩], faceUp := [⟨.king, .hearts⟩, ⟨.queen, .spades⟩] }
      ⟨.king, .hearts⟩ rfl rfl rfl ⟨1, exEmptyT, rfl, by decide, rfl⟩).1
      ⟨rfl, by decide⟩,
   (king_to_empty_pruning exKingPlainBoard 0 0
      { faceDown := [], faceUp := [⟨.king, .hearts⟩, ⟨.queen, .spades⟩] }
      ⟨.king, .hearts⟩ rfl rfl rfl ⟨1, exEmptyT, rfl, by decide, rfl⟩).2
      (by simp)⟩

/-! ## C1: conservation of the 52 cards -/

lemma getLast?_some_decomp {l : List Card} {c : Card} (h : l.getLast? = some c) :
    l.dropLast ++ [c] = l := by
  have hne : l ≠ [] := by
    intro hn
    rw [hn] at h
    simp at h
  have hg : l.getLast hne = c := by
    have := List.getLast?_eq_getLast l hne
    rw [h] at this
    exact (Option.some.inj this).symm
  rw [← hg]
  exact List.dropLast_append_getLast hne

lemma popCardFrom_eq {l rest : List Card} {c : Card}
    (h : popCardFrom l = some (c, rest)) : l = rest ++ [c] := by
  unfold popCardFrom at h
  rcases hl : l.getLast? with _ | c2
  · rw [hl] at h
    exact Option.noConfusion h
  · rw [hl] at h
    obtain ⟨h1, h2⟩ := Prod.mk.injEq .. ▸ Option.some.inj h
    subst h1
    subst h2
    exact (getLast?_some_decomp hl).symm

/-- Replacing one list element changes a flatMap's multiset by swapping
that element's contribution. -/
lemma flatMap_set_ms (f : Tableau → List Card) :
    ∀ (L : List Tableau) (i : Nat) (x y : Tableau), L[i]? = some y →
      ((L.set i x).flatMap f : Multiset Card) + ↑(f y) =
        (L.flatMap f : Multiset Card) + ↑(f x) := by
  intro L
  induction L with
  | nil => intro i x y h; simp at h
  | cons a tl ih =>
    intro i x y h
    cases i with
    | zero =>
      simp only [List.getElem?_cons_zero, Option.some.injEq] at h
      subst h
      simp only [List.set_cons_zero, List.flatMap_cons, ← Multiset.coe_add]
      abel
    | succ n =>
      simp only [List.getElem?_cons_succ] at h
      have hih := ih n x y h
      simp only [List.set_cons_succ, List.flatMap_cons, ← Multiset.coe_add]
      calc (↑(f a) + ↑((tl.set n x).flatMap f) : Multiset Card) + ↑(f y)
          = ↑(f a) + (((tl.set n x).flatMap f : Multiset Card) + ↑(f y)) := by abel
        _ = ↑(f a) + ((tl.flatMap f : Multiset Card) + ↑(f x)) := by rw [hih]
        _ = ↑(f a) + ↑(tl.flatMap f) + ↑(f x) := by abel

/-- The analogous fact for the foundations list. -/
lemma flatMap_set_ms_foundation :
    ∀ (L : List Foundation) (i : Nat) (x y : Foundation), L[i]? = some y →
      ((L.set i x).flatMap (fun fo => fo.cards) : Multiset Card) + ↑y.cards =
        (L.flatMap (fun fo => fo.cards) : Multiset Card) + ↑x.cards := by
  intro L
  induction L with
  | nil => intro i x y h; simp at h
  | cons a tl ih =>
    intro i x y h
    cases i with
    | zero =>
      simp only [List.getElem?_cons_zero, Option.some.injEq] at h
      subst h
      simp only [List.set_cons_zero, List.flatMap_cons, ← Multiset.coe_add]
      abel
    | succ n =>
      simp only [List.getElem?_cons_succ] at h
      have hih := ih n x y h
      simp only [List.set_cons_succ, List.flatMap_cons, ← Multiset.coe_add]
      calc (↑a.cards + ↑((tl.set n x).flatMap fun fo => fo.cards) : Multiset Card) + ↑y.cards
          = ↑a.cards + (((tl.set n x).flatMap fun fo => fo.cards : Multiset Card) + ↑y.cards) := by
            abel
        _ = ↑a.cards + ((tl.flatMap fun fo => fo.cards : Multiset Card) + ↑x.cards) := by rw [hih]
        _ = ↑a.cards + ↑(tl.flatMap fun fo => fo.cards) + ↑x.cards := by abel

lemma popStack_facts (t : Tableau) (n : Nat) :
    (t.popStack n).2.faceUp ++ (t.popStack n).1 = t.faceUp ∧
      (t.popStack n).2.faceDown = t.faceDown := by
  by_cases hn : n = 0 <;> simp [Tableau.popStack, hn, List.take_append_drop]

lemma flipTopCard_allCards (t : Tableau) : t.flipTopCard.allCards = t.allCards := by
  unfold Tableau.flipTopCard
  split
  · next heq hl =>
    simp [Tableau.allCards, heq, getLast?_some_decomp hl]
  · rfl

lemma allCards_ms (b : Board) :
    (b.allCards : Multiset Card) =
      ↑b.stock + ↑b.waste + ↑(b.foundations.flatMap fun fo => fo.cards) +
        ↑(b.tableaus.flatMap Tableau.allCards) := by
  simp only [Board.allCards, Multiset.coe_add]

/-- Executing any single move (with distinct source and destination for
the tableau-to-tableau variants, as the enumerator guarantees) keeps the
multiset of all cards on the board unchanged. -/
lemma moveExec_allCards {b b2 : Board} {m : Move}
    (hne : ∀ si di n c,
      m = .tableauToTableau si di n c ∨ m = .tableauToTableauAndReveal si di n c → si ≠ di)
    (hx : moveExec b m = some b2) :
    (b2.allCards : Multiset Card) = ↑b.allCards := by
  cases m with
  | drawFromStock =>
    rcases hp : popCardFrom b.stock with _ | p
    · simp [moveExec, hp] at hx
    · simp only [moveExec, hp, Option.bind_eq_bind, Option.some_bind, Option.pure_def,
        Option.some.injEq] at hx
      subst hx
      have hl := popCardFrom_eq hp
      rw [allCards_ms, allCards_ms]
      simp only [addCard, ← Multiset.coe_add, hl]
      abel
  | resetStock =>
    simp only [moveExec, Option.some.injEq] at hx
    subst hx
    rw [allCards_ms, allCards_ms]
    simp only [resetLoop_spec, ← Multiset.coe_add, Multiset.coe_reverse, Multiset.coe_nil]
    abel
  | wasteToFoundation fi card =>
    rcases hp : popCardFrom b.waste with _ | p
    · simp [moveExec, hp] at hx
    · rcases hf : b.foundations[fi]? with _ | f
      · simp [moveExec, hp, hf] at hx
      · simp only [moveExec, hp, hf, Option.bind_eq_bind, Option.some_bind, Option.pure_def,
          Option.some.injEq] at hx
        subst hx
        have hw := popCardFrom_eq hp
        have hF := flatMap_set_ms_foundation b.foundations fi
          { f with cards := addCard f.cards p.1 } f hf
        have hF' : (↑((b.foundations.set fi { f with cards := addCard f.cards p.1 }).flatMap
              fun fo => fo.cards) : Multiset Card) =
            ↑(b.foundations.flatMap fun fo => fo.cards) + ↑[p.1] := by
          apply add_right_cancel (b := (↑f.cards : Multiset Card))
          rw [hF]
          simp only [addCard, ← Multiset.coe_add]
          abel
        rw [allCards_ms, allCards_ms]
        simp only [hF', hw, ← Multiset.coe_add]
        abel
  | wasteToTableau ti card =>
    rcases hp : popCardFrom b.waste with _ | p
    · simp [moveExec, hp] at hx
    · rcases ht : b.tableaus[ti]? with _ | t
      · simp [moveExec, hp, ht] at hx
      · simp only [moveExec, hp, ht, Option.bind_eq_bind, Option.some_bind, Option.pure_def,
          Option.some.injEq] at hx
        subst hx
        have hw := popCardFrom_eq hp
        have hT := flatMap_set_ms Tableau.allCards b.tableaus ti
          { t with faceUp := addCard t.faceUp p.1 } t ht
        have hT' : (↑((b.tableaus.set ti { t with faceUp := addCard t.faceUp p.1 }).flatMap
              Tableau.allCards) : Multiset Card) =
            ↑(b.tableaus.flatMap Tableau.allCards) + ↑[p.1] := by
          apply add_right_cancel (b := (↑t.allCards : Multiset Card))
          rw [hT]
          simp only [Tableau.allCards, addCard, ← Multiset.coe_add]
          abel
        rw [allCards_ms, allCards_ms]
        simp only [hT', hw, ← Multiset.coe_add]
        abel
  | tableauToFoundation si fi card =>
    rcases ht : b.tableaus[si]? with _ | t
    · simp [moveExec, ht] at hx
    · rcases hp : popCardFrom t.faceUp with _ | p
      · simp [moveExec, ht, hp] at hx
      · rcases hf : b.foundations[fi]? with _ | f
        · simp [moveExec, ht, hp, hf] at hx
        · simp only [moveExec, ht, hp, hf, Option.bind_eq_bind, Option.some_bind, Option.pure_def,
            Option.some.injEq] at hx
          subst hx
          have hfu := popCardFrom_eq hp
          have hF := flatMap_set_ms_foundation b.foundations fi
            { f with cards := addCard f.cards p.1 } f hf
          have hF' : (↑((b.foundations.set fi { f with cards := addCard f.cards p.1 }).flatMap
                fun fo => fo.cards) : Multiset Card) =
              ↑(b.foundations.flatMap fun fo => fo.cards) + ↑[p.1] := by
            apply add_right_cancel (b := (↑f.cards : Multiset Card))
            rw [hF]
            simp only [addCard, ← Multiset.coe_add]
            abel
          have hT := flatMap_set_ms Tableau.allCards b.tableaus si
            { t with faceUp := p.2 } t ht
          rw [allCards_ms, allCards_ms]
          simp only [hF']
          apply add_right_cancel (b := (↑t.allCards : Multiset Card))
          calc ↑b.stock + ↑b.waste +
                  (↑(b.foundations.flatMap fun fo => fo.cards) + ↑[p.1]) +
                  ↑((b.tableaus.set si { t with faceUp := p.2 }).flatMap Tableau.allCards) +
                  ↑t.allCards
              = ↑b.stock + ↑b.waste + ↑(b.foundations.flatMap fun fo => fo.cards) + ↑[p.1] +
                  (↑((b.tableaus.set si { t with faceUp := p.2 }).flatMap Tableau.allCards) +
                    ↑t.allCards) := by abel
            _ = ↑b.stock + ↑b.waste + ↑(b.foundations.flatMap fun fo => fo.cards) + ↑[p.1] +
                  ((↑(b.tableaus.flatMap Tableau.allCards) : Multiset Card) +
                    ↑({ t with faceUp := p.2 } : Tableau).allCards) := by rw [hT]
            _ = ↑b.stock + ↑b.waste + ↑(b.foundations.flatMap fun fo => fo.cards) +
                  ↑(b.tableaus.flatMap Tableau.allCards) + ↑t.allCards := by
                simp only [Tableau.allCards, ← Multiset.coe_add, hfu]
                abel
  | tableauToFoundationAndReveal si fi card =>
    rcases ht : b.tableaus[si]? with _ | t
    · simp [moveExec, ht] at hx
    · rcases hp : popCardFrom t.faceUp with _ | p
      · simp [moveExec, ht, hp] at hx
      · rcases hf : b.foundations[fi]? with _ | f
        · simp [moveExec, ht, hp, hf] at hx
        · simp only [moveExec, ht, hp, hf, Option.bind_eq_bind, Option.some_bind, Option.pure_def,
            Option.some.injEq] at hx
          subst hx
          have hfu := popCardFrom_eq hp
          have hF := flatMap_set_ms_foundation b.foundations fi
            { f with cards := addCard f.cards p.1 } f hf
          have hF' : (↑((b.foundations.set fi { f with cards := addCard f.cards p.1 }).flatMap
                fun fo => fo.cards) : Multiset Card) =
              ↑(b.foundations.flatMap fun fo => fo.cards) + ↑[p.1] := by
            apply add_right_cancel (b := (↑f.cards : Multiset Card))
            rw [hF]
            simp only [addCard, ← Multiset.coe_add]
            abel
          have hT := flatMap_set_ms Tableau.allCards b.tableaus si
            ({ t with faceUp := p.2 } : Tableau).flipTopCard t ht
          rw [flipTopCard_allCards] at hT
          rw [allCards_ms, allCards_ms]
          simp only [hF']
          apply add_right_cancel (b := (↑t.allCards : Multiset Card))
          calc ↑b.stock + ↑b.waste +
                  (↑(b.foundations.flatMap fun fo => fo.cards) + ↑[p.1]) +
                  ↑((b.tableaus.set si ({ t with faceUp := p.2 } : Tableau).flipTopCard).flatMap
                    Tableau.allCards) + ↑t.allCards
              = ↑b.stock + ↑b.waste + ↑(b.foundations.flatMap fun fo => fo.cards) + ↑[p.1] +
                  (↑((b.tableaus.set si ({ t with faceUp := p.2 } : Tableau).flipTopCard).flatMap
                      Tableau.allCards) + ↑t.allCards) := by abel
            _ = ↑b.stock + ↑b.waste + ↑(b.foundations.flatMap fun fo => fo.cards) + ↑[p.1] +
                  ((↑(b.tableaus.flatMap Tableau.allCards) : Multiset Card) +
                    ↑({ t with faceUp := p.2 } : Tableau).allCards) := by rw [hT]
            _ = ↑b.stock + ↑b.waste + ↑(b.foundations.flatMap fun fo => fo.cards) +
                  ↑(b.tableaus.flatMap Tableau.allCards) + ↑t.allCards := by
                simp only [Tableau.allCards, ← Multiset.coe_add, hfu]
                abel
  | foundationToTableau fi ti card =>
    rcases hf : b.foundations[fi]? with _ | f
    · simp [moveExec, hf] at hx
    · rcases hp : popCardFrom f.cards with _ | p
      · simp [moveExec, hf, hp] at hx
      · rcases ht : b.tableaus[ti]? with _ | t
        · simp [moveExec, hf, hp, ht] at hx
        · simp only [moveExec, hf, hp, ht, Option.bind_eq_bind, Option.some_bind, Option.pure_def,
            Option.some.injEq] at hx
          subst hx
          have hfc := popCardFrom_eq hp
          have hT := flatMap_set_ms Tableau.allCards b.tableaus ti
            { t with faceUp := addCard t.faceUp p.1 } t ht
          have hT' : (↑((b.tableaus.set ti { t with faceUp := addCard t.faceUp p.1 }).flatMap
                Tableau.allCards) : Multiset Card) =
              ↑(b.tableaus.flatMap Tableau.allCards) + ↑[p.1] := by
            apply add_right_cancel (b := (↑t.allCards : Multiset Card))
            rw [hT]
            simp only [Tableau.allCards, addCard, ← Multiset.coe_add]
            abel
          have hF := flatMap_set_ms_foundation b.foundations fi
            { f with cards := p.2 } f hf
          rw [allCards_ms, allCards_ms]
          simp only [hT']
          apply add_right_cancel (b := (↑f.cards : Multiset Card))
          calc ↑b.stock + ↑b.waste +
                  ↑((b.foundations.set fi { f with cards := p.2 }).flatMap fun fo => fo.cards) +
                  (↑(b.tableaus.flatMap Tableau.allCards) + ↑[p.1]) + ↑f.cards
              = ↑b.stock + ↑b.waste + ↑(b.tableaus.flatMap Tableau.allCards) + ↑[p.1] +
                  (↑((b.foundations.set fi { f with cards := p.2 }).flatMap fun fo => fo.cards) +
                    ↑f.cards) := by abel
            _ = ↑b.stock + ↑b.waste + ↑(b.tableaus.flatMap Tableau.allCards) + ↑[p.1] +
                  ((↑(b.foundations.flatMap fun fo => fo.cards) : Multiset Card) + ↑p.2) := by
                rw [hF]
            _ = ↑b.stock + ↑b.waste + ↑(b.foundations.flatMap fun fo => fo.cards) +
                  ↑(b.tableaus.flatMap Tableau.allCards) + ↑f.cards := by
                simp only [← Multiset.coe_add, hfc]
                abel
  | tableauToTableau si di n card =>
    have hsd : si ≠ di := hne si di n card (.inl rfl)
    rcases hs : b.tableaus[si]? with _ | src
    · simp [moveExec, hs] at hx
    · rcases hd : b.tableaus[di]? with _ | dst
      · simp [moveExec, hs, hd] at hx
      · simp only [moveExec, hs, hd, Option.bind_eq_bind, Option.some_bind, Option.pure_def,
          Option.some.injEq] at hx
        subst hx
        have e1 := flatMap_set_ms Tableau.allCards b.tableaus si (src.popStack n).2 src hs
        have hdi2 : (b.tableaus.set si (src.popStack n).2)[di]? = some dst := by
          rw [List.getElem?_set_ne hsd]
          exact hd
        have e2 := flatMap_set_ms Tableau.allCards (b.tableaus.set si (src.popStack n).2) di
          { dst with faceUp := dst.faceUp ++ (src.popStack n).1 } dst hdi2
        rw [allCards_ms, allCards_ms]
        apply add_right_cancel (b := (↑dst.allCards : Multiset Card) + ↑src.allCards)
        calc ↑b.stock + ↑b.waste + ↑(b.foundations.flatMap fun fo => fo.cards) +
                ↑(((b.tableaus.set si (src.popStack n).2).set di
                    { dst with faceUp := dst.faceUp ++ (src.popStack n).1 }).flatMap
                  Tableau.allCards) + ((↑dst.allCards : Multiset Card) + ↑src.allCards)
            = ↑b.stock + ↑b.waste + ↑(b.foundations.flatMap fun fo => fo.cards) +
                ((↑(((b.tableaus.set si (src.popStack n).2).set di
                      { dst with faceUp := dst.faceUp ++ (src.popStack n).1 }).flatMap
                    Tableau.allCards) : Multiset Card) + ↑dst.allCards) + ↑src.allCards := by
              abel
          _ = ↑b.stock + ↑b.waste + ↑(b.foundations.flatMap fun fo => fo.cards) +
                ((↑((b.tableaus.set si (src.popStack n).2).flatMap Tableau.allCards) :
                    Multiset Card) +
                  ↑({ dst with faceUp := dst.faceUp ++ (src.popStack n).1 } : Tableau).allCards) +
                ↑src.allCards := by rw [e2]
          _ = ↑b.stock + ↑b.waste + ↑(b.foundations.flatMap fun fo => fo.cards) +
                ((↑((b.tableaus.set si (src.popStack n).2).flatMap Tableau.allCards) :
                    Multiset Card) + ↑src.allCards) +
                ↑({ dst with faceUp := dst.faceUp ++ (src.popStack n).1 } : Tableau).allCards := by
              abel
          _ = ↑b.stock + ↑b.waste + ↑(b.foundations.flatMap fun fo => fo.cards) +
                ((↑(b.tableaus.flatMap Tableau.allCards) : Multiset Card) +
                  ↑((src.popStack n).2).allCards) +
                ↑({ dst with faceUp := dst.faceUp ++ (src.popStack n).1 } : Tableau).allCards := by
              rw [e1]
          _ = ↑b.stock + ↑b.waste + ↑(b.foundations.flatMap fun fo => fo.cards) +
                ↑(b.tableaus.flatMap Tableau.allCards) +
                ((↑dst.allCards : Multiset Card) + ↑src.allCards) := by
              have h1 := (popStack_facts src n).1
              have h2 := (popStack_facts src n).2
              simp only [Tableau.allCards, ← Multiset.coe_add, h2, ← h1]
              abel
  | tableauToTableauAndReveal si di n card =>
    have hsd : si ≠ di := hne si di n card (.inr rfl)
    rcases hs : b.tableaus[si]? with _ | src
    · simp [moveExec, hs] at hx
    · rcases hd : b.tableaus[di]? with _ | dst
      · simp [moveExec, hs, hd] at hx
      · simp only [moveExec, hs, hd, Option.bind_eq_bind, Option.some_bind, Option.pure_def,
          Option.some.injEq] at hx
        subst hx
        have e1 := flatMap_set_ms Tableau.allCards b.tableaus si
          (src.popStack n).2.flipTopCard src hs
        rw [flipTopCard_allCards] at e1
        have hdi2 : (b.tableaus.set si (src.popStack n).2.flipTopCard)[di]? = some dst := by
          rw [List.getElem?_set_ne hsd]
          exact hd
        have e2 := flatMap_set_ms Tableau.allCards
          (b.tableaus.set si (src.popStack n).2.flipTopCard) di
          { dst with faceUp := dst.faceUp ++ (src.popStack n).1 } dst hdi2
        rw [allCards_ms, allCards_ms]
        apply add_right_cancel (b := (↑dst.allCards : Multiset Card) + ↑src.allCards)
        calc ↑b.stock + ↑b.waste + ↑(b.foundations.flatMap fun fo => fo.cards) +
                ↑(((b.tableaus.set si (src.popStack n).2.flipTopCard).set di
                    { dst with faceUp := dst.faceUp ++ (src.popStack n).1 }).flatMap
                  Tableau.allCards) + ((↑dst.allCards : Multiset Card) + ↑src.allCards)
            = ↑b.stock + ↑b.waste + ↑(b.foundations.flatMap fun fo => fo.cards) +
                ((↑(((b.tableaus.set si (src.popStack n).2.flipTopCard).set di
                      { dst with faceUp := dst.faceUp ++ (src.popStack n).1 }).flatMap
                    Tableau.allCards) : Multiset Card) + ↑dst.allCards) + ↑src.allCards := by
              abel
          _ = ↑b.stock + ↑b.waste + ↑(b.foundations.flatMap fun fo => fo.cards) +
                ((↑((b.tableaus.set si (src.popStack n).2.flipTopCard).flatMap
                      Tableau.allCards) : Multiset Card) +
                  ↑({ dst with faceUp := dst.faceUp ++ (src.popStack n).1 } : Tableau).allCards) +
                ↑src.allCards := by rw [e2]
          _ = ↑b.stock + ↑b.waste + ↑(b.foundations.flatMap fun fo => fo.cards) +
                ((↑((b.tableaus.set si (src.popStack n).2.flipTopCard).flatMap
                      Tableau.allCards) : Multiset Card) + ↑src.allCards) +
                ↑({ dst with faceUp := dst.faceUp ++ (src.popStack n).1 } : Tableau).allCards := by
              abel
          _ = ↑b.stock + ↑b.waste + ↑(b.foundations.flatMap fun fo => fo.cards) +
                ((↑(b.tableaus.flatMap Tableau.allCards) : Multiset Card) +
                  ↑((src.popStack n).2).allCards) +
                ↑({ dst with faceUp := dst.faceUp ++ (src.popStack n).1 } : Tableau).allCards := by
              rw [e1]
          _ = ↑b.stock + ↑b.waste + ↑(b.foundations.flatMap fun fo => fo.cards) +
                ↑(b.tableaus.flatMap Tableau.allCards) +
                ((↑dst.allCards : Multiset Card) + ↑src.allCards) := by
              have h1 := (popStack_facts src n).1
              have h2 := (popStack_facts src n).2
              simp only [Tableau.allCards, ← Multiset.coe_add, h2, ← h1]
              abel

/-- Tableau-to-tableau moves produced by the enumerator never have equal
source and destination indices. -/
lemma legalMoves_t2t_ne {b : Board} {si di n : Nat} {c : Card} {m : Move}
    (hm : m ∈ b.legalMoves)
    (hshape : m = .tableauToTableau si di n c ∨ m = .tableauToTableauAndReveal si di n c) :
    si ≠ di := by
  rcases List.mem_append.mp hm with h1 | hf4
  · rcases List.mem_append.mp h1 with h2 | ht3
    · rcases List.mem_append.mp h2 with hs1 | hw2
      · rcases mem_stockMoves hs1 with rfl | rfl <;> rcases hshape with h | h <;> simp at h
      · rcases mem_wasteMoves hw2 with ⟨_, _, rfl⟩ | ⟨_, _, rfl⟩ <;>
          rcases hshape with h | h <;> simp at h
    · rcases mem_tableauMovesGo ht3 with ⟨si2, fi2, cc, hsh⟩ | ⟨si2, d2, nc, cc, hd, hsh⟩
      · rcases hsh with rfl | rfl <;> rcases hshape with h | h <;> simp at h
      · rcases hsh with rfl | rfl <;> rcases hshape with h | h <;> simp at h <;>
          · obtain ⟨h1, h2, _, _⟩ := h
            subst h1
            subst h2
            exact fun he => hd (he.symm)
  · rcases mem_foundationMovesGo hf4 with ⟨_, _, _, rfl⟩
    rcases hshape with h | h <;> simp at h

/-- `Board.execute_move` preserves the card multiset for
enumerator-produced moves. -/
lemma executeMove_allCards {b b2 : Board} {m : Move} (hmem : m ∈ b.legalMoves)
    (hx : b.executeMove m = some b2) :
    (b2.allCards : Multiset Card) = ↑b.allCards := by
  unfold Board.executeMove at hx
  rcases he : moveExec b m with _ | b3
  · rw [he] at hx
    simp at hx
  · rw [he] at hx
    simp only [Option.map_some'] at hx
    have hb2 := Option.some.inj hx
    subst hb2
    have hcnt : ({ b3 with moveCount := b3.moveCount + 1 } : Board).allCards = b3.allCards := rfl
    rw [hcnt]
    exact moveExec_allCards (fun si di n c hsh => legalMoves_t2t_ne hmem hsh) he

/-- Playing any sequence of enumerator-produced moves preserves the card
multiset. -/
lemma playLegal_allCards :
    ∀ (ms : List Move) (b b2 : Board), playLegal b ms = some b2 →
      (b2.allCards : Multiset Card) = ↑b.allCards := by
  intro ms
  induction ms with
  | nil =>
    intro b b2 h
    rw [playLegal] at h
    have hb := Option.some.inj h
    subst hb
    rfl
  | cons m rest ih =>
    intro b b2 h
    rw [playLegal] at h
    split at h
    · next hmem =>
      rcases hx : b.executeMove m with _ | b3
      · rw [hx] at h
        simp at h
      · rw [hx] at h
        simp only [Option.some_bind] at h
        exact (ih b3 b2 h).trans (executeMove_allCards hmem hx)
    · exact absurd h (by simp)

lemma popMany_ms : ∀ (n : Nat) (deck : List Card),
    ((popMany deck n).1 : Multiset Card) + ↑(popMany deck n).2 = ↑deck := by
  intro n
  induction n with
  | zero => intro deck; simp [popMany]
  | succ n ih =>
    intro deck
    rw [popMany]
    rcases hl : deck.getLast? with _ | c
    · simp
    · have hd := getLast?_some_decomp hl
      dsimp only
      rw [← Multiset.cons_coe, Multiset.cons_add, ih deck.dropLast, ← Multiset.singleton_add,
        ← Multiset.coe_singleton, Multiset.coe_add]
      exact Multiset.coe_eq_coe.mpr (((List.perm_append_comm).trans (by rw [hd])))

lemma dealFrom_ms : ∀ (count : Nat) (deck : List Card) (i : Nat),
    ((dealFrom deck i count).1.flatMap Tableau.allCards : Multiset Card) +
      ↑(dealFrom deck i count).2 = ↑deck := by
  intro count
  induction count with
  | zero => intro deck i; simp [dealFrom]
  | succ c ih =>
    intro deck i
    rw [dealFrom]
    simp only [List.flatMap_cons, Tableau.allCards, ← Multiset.coe_add]
    rw [add_assoc, add_assoc, ih (popMany (popMany deck i).2 1).2 (i + 1),
      popMany_ms 1 (popMany deck i).2]
    exact popMany_ms i deck

lemma setup_allCards (deck : List Card) :
    ((Board.setup initBoard deck).allCards : Multiset Card) = ↑deck := by
  have h := dealFrom_ms 7 deck 0
  rw [allCards_ms]
  simp only [Board.setup, initBoard, foundationSuits]
  simp only [List.map_cons, List.map_nil, List.flatMap_cons, List.flatMap_nil,
    List.nil_append, List.append_nil, Multiset.coe_nil]
  rw [add_comm]
  simpa using h

/-- C1: from a full deal of any permutation of the standard deck, every
sequence of enumerator-produced moves leaves the multiset of cards across
the stock, waste, foundations and tableaus equal to the standard 52-card
deck, which has 52 pairwise-distinct members covering every (rank, suit)
pair. -/
theorem deck_conservation (deck : List Card) (hperm : deck.Perm standardDeck)
    (ms : List Move) (b2 : Board)
    (hplay : playLegal (Board.setup initBoard deck) ms = some b2) :
    (b2.allCards : Multiset Card) = ↑standardDeck ∧
      standardDeck.Nodup ∧ standardDeck.length = 52 ∧ ∀ c : Card, c ∈ standardDeck := by
  refine ⟨?_, by decide, by decide, by decide⟩
  rw [playLegal_allCards ms _ b2 hplay, setup_allCards]
  exact Multiset.coe_eq_coe.mpr hperm

/-- C1 witness: the identity permutation and the empty move sequence. -/
theorem deck_conservation_witness :
    ((Board.setup initBoard standardDeck).allCards : Multiset Card) = ↑standardDeck ∧
      standardDeck.Nodup ∧ standardDeck.length = 52 ∧ ∀ c : Card, c ∈ standardDeck :=
  deck_conservation standardDeck (List.Perm.refl _) [] (Board.setup initBoard standardDeck) rfl

end Solitaire
